import Mathlib

/-!
Shallow embedding of `src/main.py` (YouTube Saver: yt-dlp + Dear PyGui).

The orchestration core is embedded faithfully:
* `build_format_string`, `make_ydl_opts` — the format policy resolver;
* `progress_hook` — the progress callback (cancellation check, downloading /
  finished status handling), returning `Except` to model the raised
  `DownloadError` on cancellation;
* `run_download`, `downloader_worker` — the worker; the external
  `ydl.download` call is modelled by a list of progress-hook invocations
  (each with the cancellation-flag state observed at that call) followed by
  an optional exception from the collaborator;
* `on_start_download`, `on_cancel_download`, `append_log`, `applyEvent`,
  `ui_pump` — coordinator entry points and the consumer pump.

Environmental inputs (ffmpeg presence on PATH, `os.path.isdir`) are passed
as parameters; machine floats of the source are modelled as exact rationals.
-/

namespace SaveFromYoutube

/-- Items of `ui_update_queue`: tagged `("log"|"progress"|"done", payload)`
tuples in the source. -/
inductive Event where
  | log (text : String)
  | progress (percent : ℚ) (text : String)
  | done (ok : Bool)

deriving instance DecidableEq for Event

/-- Exceptions that the worker's `try` block distinguishes:
`yt_dlp.utils.DownloadError` (the variant the cancellation signal uses,
per the collaborator contract) versus any other `Exception`. -/
inductive Exn where
  | downloadError (msg : String)
  | otherError (msg : String)

deriving instance DecidableEq for Exn

/-- The source's `"+" in fmt` membership test (single-character substring,
hence character membership). -/
def strHasChar (s : String) (c : Char) : Bool :=
  s.toList.any (fun x => x == c)

/-- The source's `quality_heights.get(video_quality)`: the dict literal maps
"Best" and "Audio only" to `None`, the four resolutions to their heights, and
`.get` yields `None` for any other key. -/
def quality_heights_get (q : String) : Option Nat :=
  if q == "Best" then none
  else if q == "1080p" then some 1080
  else if q == "720p" then some 720
  else if q == "480p" then some 480
  else if q == "360p" then some 360
  else if q == "Audio only" then none
  else none

/-- Model of `build_format_string(video_quality, force_mp4, have_ffmpeg)`: returns
`(format_selector, extra_opts)`; `extra_opts` is an association list (the
source's dict, which only ever holds the `merge_output_format` key). -/
def build_format_string (video_quality : String) (force_mp4 : Bool) (have_ffmpeg : Bool) :
    String × List (String × String) :=
  let extra_opts : List (String × String) := []
  let max_h := quality_heights_get video_quality
  if video_quality == "Audio only" then
    ("bestaudio/best", extra_opts)
  else if force_mp4 then
    let v_sel := match max_h with
      | none => "bestvideo[ext=mp4]"
      | some h => "bestvideo[ext=mp4][height<=" ++ toString h ++ "]"
    let a_sel := "bestaudio[ext=m4a]"
    let fmt := v_sel ++ "+" ++ a_sel ++ "/best[ext=mp4]"
    if !have_ffmpeg then
      let fmt2 := match max_h with
        | none => "best[ext=mp4]/best"
        | some h => "best[ext=mp4][height<=" ++ toString h ++ "]/best"
      (fmt2, extra_opts)
    else
      (fmt, [("merge_output_format", "mp4")])
  else
    match max_h with
    | none => ("bestvideo+bestaudio/best", extra_opts)
    | some h =>
        ("bestvideo[height<=" ++ toString h ++ "]+bestaudio/best[height<=" ++ toString h ++ "]",
         extra_opts)

/-- One entry of the `postprocessors` list of `ydl_opts`. -/
structure Postprocessor where
  key : String
  preferredcodec : String
  preferredquality : String

deriving instance DecidableEq for Postprocessor

/-- The `ydl_opts` dict assembled by `make_ydl_opts`. `format` starts unset
(empty) and every branch assigns it; `merge_output_format` and
`postprocessors` are absent (none / empty) unless a branch adds them.
The `progress_hooks` entry (a function value) is implicit: the worker model
below invokes `progress_hook` directly. -/
structure YdlOpts where
  quiet : Bool
  no_warnings : Bool
  outtmpl : String
  noprogress : Bool
  continuedl : Bool
  consoletitle : Bool
  socket_timeout : Nat
  retries : Nat
  fragment_retries : Nat
  http_chunk_size : Nat
  format : String
  merge_output_format : Option String
  postprocessors : List Postprocessor

deriving instance DecidableEq for YdlOpts

/-- The fixed base dict of `make_ydl_opts` (before the per-type branches);
`os.path.join(out_dir, tmpl)` is modelled as posix-style concatenation. -/
def baseOpts (out_dir : String) : YdlOpts :=
  { quiet := true
    no_warnings := true
    outtmpl := out_dir ++ "/%(title)s-%(id)s.%(ext)s"
    noprogress := true
    continuedl := true
    consoletitle := false
    socket_timeout := 30
    retries := 3
    fragment_retries := 3
    http_chunk_size := 10485760
    format := ""
    merge_output_format := none
    postprocessors := [] }

/-- Model of `ydl_opts.update(extra)`: the resolver's `extra_opts` only ever carries
the `merge_output_format` key, which lands in the corresponding field. -/
def applyExtra (o : YdlOpts) (extra : List (String × String)) : YdlOpts :=
  extra.foldl
    (fun acc kv =>
      if kv.1 == "merge_output_format" then { acc with merge_output_format := some kv.2 }
      else acc)
    o

/-- Model of `make_ydl_opts(url, out_dir, out_type, quality)`. Besides the options
dict it returns the list of events the function itself enqueues on
`ui_update_queue` (the ffmpeg-fallback notes), in order. `have_ffmpeg`
stands for the source's `is_ffmpeg_available()` probe of the environment.
The `url` parameter is accepted but unused, as in the source. -/
def make_ydl_opts (url out_dir out_type quality : String) (have_ffmpeg : Bool) :
    YdlOpts × List Event :=
  let _ := url
  let ydl_opts := baseOpts out_dir
  if out_type == "Video (MP4)" then
    let fe := build_format_string quality true have_ffmpeg
    let o := { applyExtra ydl_opts fe.2 with format := fe.1 }
    if !have_ffmpeg && strHasChar fe.1 '+' then
      (o, [Event.log "FFmpeg not found; falling back to single-file MP4 if possible."])
    else
      (o, [])
  else if out_type == "Audio (MP3)" then
    let o := { ydl_opts with format := "bestaudio/best" }
    if have_ffmpeg then
      ({ o with postprocessors :=
          [{ key := "FFmpegExtractAudio", preferredcodec := "mp3", preferredquality := "0" }] },
       [])
    else
      (o, [Event.log "FFmpeg not found; saving best audio without MP3 conversion."])
  else if out_type == "Best (Original)" then
    let fe := build_format_string quality false have_ffmpeg
    ({ applyExtra ydl_opts fe.2 with format := fe.1 }, [])
  else
    ({ ydl_opts with format := "bestvideo+bestaudio/best" }, [])

/-- The status dict `d` passed by yt-dlp to `progress_hook`. Byte counts and
ETA are naturals, speed a rational (bytes/sec); `none` models an absent key. -/
structure StatusDict where
  status : Option String
  total_bytes : Option Nat
  total_bytes_estimate : Option Nat
  downloaded_bytes : Option Nat
  speed : Option ℚ
  eta : Option Nat
  filename : Option String

/-- Python `a or b` on an optional integer: `None` and `0` are falsy. -/
def orNat (a : Option Nat) (b : Nat) : Nat :=
  match a with
  | some n => if n == 0 then b else n
  | none => b

/-- Python `a or b` on an optional string: `None` and `""` are falsy. -/
def orStr (a : Option String) (b : String) : String :=
  match a with
  | some s => if s == "" then b else s
  | none => b

/-- Round a rational to the nearest integer, halves to even — the rounding
Python's fixed-point format specifiers apply. -/
def roundHalfEven (q : ℚ) : ℤ :=
  let f : ℤ := Int.fdiv q.num q.den
  let r : ℚ := q - (f : ℚ)
  if r < 1 / 2 then f
  else if 1 / 2 < r then f + 1
  else if f % 2 = 0 then f else f + 1

/-- Python `f"{q:.1f}"` for the nonnegative values the hook produces. -/
def format1f (q : ℚ) : String :=
  let n := roundHalfEven (q * 10)
  toString (Int.fdiv n 10) ++ "." ++ toString (Int.emod n 10)

/-- Python `f"{q:.2f}"` for the nonnegative values the hook produces. -/
def format2f (q : ℚ) : String :=
  let n := roundHalfEven (q * 100)
  let frac := Int.emod n 100
  toString (Int.fdiv n 100) ++ "." ++ (if frac < 10 then "0" else "") ++ toString frac

/-- The hook's `total = d.get("total_bytes") or d.get("total_bytes_estimate") or 0`. -/
def dl_total (d : StatusDict) : Nat := orNat d.total_bytes (orNat d.total_bytes_estimate 0)

/-- The hook's `downloaded = d.get("downloaded_bytes") or 0`. -/
def dl_downloaded (d : StatusDict) : Nat := orNat d.downloaded_bytes 0

/-- The hook's `percent`: `downloaded / total` when both are truthy, else 0. -/
def dl_percent (d : StatusDict) : ℚ :=
  if dl_total d != 0 && dl_downloaded d != 0 then
    ((dl_downloaded d : ℚ)) / ((dl_total d : ℚ))
  else 0

/-- The hook's throughput fragment: present only when `speed` is truthy. -/
def dl_speed_part (sp : Option ℚ) : String :=
  match sp with
  | some s => if s == 0 then "" else " | " ++ format2f (s / 1024 / 1024) ++ " MB/s"
  | none => ""

/-- The hook's ETA fragment: present only when `eta` is truthy. -/
def dl_eta_part (et : Option Nat) : String :=
  match et with
  | some e => if e == 0 then "" else " | ETA: " ++ toString e ++ "s"
  | none => ""

/-- The hook's display text for a "downloading" status record. -/
def dl_text (d : StatusDict) : String :=
  "Downloading... " ++ format1f (dl_percent d * 100) ++ "%"
    ++ dl_speed_part d.speed ++ dl_eta_part d.eta

/-- Model of `progress_hook(d)`: checks the cancellation flag (passed explicitly as
`cancel_event`), raising `DownloadError("Cancelled by user")` when set;
otherwise handles the "downloading" and "finished" statuses. The returned
list is what it enqueues on `ui_update_queue`, in order; `Except.error`
models the raised exception (nothing enqueued). -/
def progress_hook (cancel_event : Bool) (d : StatusDict) : Except Exn (List Event) :=
  if cancel_event then
    Except.error (Exn.downloadError "Cancelled by user")
  else if d.status == some "downloading" then
    Except.ok [Event.progress (dl_percent d) (dl_text d)]
  else if d.status == some "finished" then
    Except.ok [Event.log ("Downloaded to: " ++ orStr d.filename ""),
               Event.progress 1 "Download finished"]
  else
    Except.ok []

/-- The `ydl.download([url])` call: the collaborator invokes `progress_hook`
zero or more times (each invocation sees the cancellation-flag state current
at that moment), then either returns normally (`outcome = none`) or raises.
A hook exception aborts the run immediately and propagates. Returns the
events enqueued by the hooks plus the exception escaping the call, if any. -/
def run_download (calls : List (Bool × StatusDict)) (outcome : Option Exn) :
    List Event × Option Exn :=
  match calls with
  | [] => ([], outcome)
  | c :: rest =>
    match progress_hook c.1 c.2 with
    | Except.error e => ([], some e)
    | Except.ok evs =>
        let r := run_download rest outcome
        (evs ++ r.1, r.2)

/-- Model of `downloader_worker(url, out_dir, out_type, quality)`: builds the options
(which may itself enqueue log events), enqueues "Starting: {url}", runs the
download, and converts its outcome into terminal events: `done ok=True` on
normal return, `"Cancelled: …"` + `done ok=False` on `DownloadError`,
`"Error: …"` + `done ok=False` on any other exception. Returns everything
the worker enqueues on `ui_update_queue`, in order. -/
def downloader_worker (url out_dir out_type quality : String) (have_ffmpeg : Bool)
    (calls : List (Bool × StatusDict)) (outcome : Option Exn) : List Event :=
  let mo := make_ydl_opts url out_dir out_type quality have_ffmpeg
  let pre := mo.2 ++ [Event.log ("Starting: " ++ url)]
  let r := run_download calls outcome
  match r.2 with
  | none => pre ++ r.1 ++ [Event.done true]
  | some (Exn.downloadError m) =>
      pre ++ r.1 ++ [Event.log ("Cancelled: " ++ m), Event.done false]
  | some (Exn.otherError m) =>
      pre ++ r.1 ++ [Event.log ("Error: " ++ m), Event.done false]

/-- Observable effects of `on_start_download` on the coordinator state:
`append_log` lines written, whether a worker thread was spawned, whether
`cancel_event.clear()` ran, whether the progress bar was reset. -/
structure StartEffects where
  logs : List String
  spawned : Bool
  cancelCleared : Bool
  progressReset : Bool

deriving instance DecidableEq for StartEffects

/-- Model of `on_start_download()`: reads and strips the url and output dir, validates
them (each rejection appends exactly one log line and returns), then resets
state and spawns the worker. `isdir` stands for `os.path.isdir`. -/
def on_start_download (rawUrl rawOutDir : String) (isdir : String → Bool) : StartEffects :=
  let url := rawUrl.trim
  let out_dir := rawOutDir.trim
  if url == "" then
    { logs := ["Please enter a URL."], spawned := false,
      cancelCleared := false, progressReset := false }
  else if out_dir == "" then
    { logs := ["Please choose an output folder."], spawned := false,
      cancelCleared := false, progressReset := false }
  else if !(isdir out_dir) then
    { logs := ["Output folder does not exist."], spawned := false,
      cancelCleared := false, progressReset := false }
  else
    { logs := [], spawned := true, cancelCleared := true, progressReset := true }

/-- Observable effects of `on_cancel_download`: it only sets the flag and
logs — it touches neither the worker nor the event queue. -/
structure CancelEffects where
  flagSet : Bool
  logs : List String

deriving instance DecidableEq for CancelEffects

/-- Model of `on_cancel_download()`: sets `cancel_event` and logs "Cancelling...". -/
def on_cancel_download : CancelEffects :=
  { flagSet := true, logs := ["Cancelling..."] }

/-- Model of `append_log(text)`: appends to the log box, separating with a newline
unless the log was empty. -/
def append_log (prev text : String) : String :=
  (if prev != "" then prev ++ "\n" else "") ++ text

/-- The externally observable UI state the pump mutates. -/
structure UIState where
  logText : String
  progressBar : ℚ
  overlay : String
  startEnabled : Bool
  cancelEnabled : Bool

deriving instance DecidableEq for UIState

/-- One iteration of `ui_pump`'s drain loop applied to one dequeued event:
log → append; progress → clamp the fraction to [0,1] and set bar/overlay;
done → re-enable start, disable cancel, and log completion when ok. -/
def applyEvent (st : UIState) : Event → UIState
  | Event.log t => { st with logText := append_log st.logText t }
  | Event.progress p t =>
      let pct := max 0 (min 1 p)
      { st with progressBar := pct, overlay := t }
  | Event.done ok =>
      let st1 :=
        if ok then { st with logText := append_log st.logText "All tasks completed." } else st
      { st1 with startEnabled := true, cancelEnabled := false }

/-- Model of `ui_pump()`: throttled to one drain per 150 ms; when due, drains all
pending events in FIFO order. Returns the new `last_pump_time` and state. -/
def ui_pump (last_pump_time now : ℚ) (st : UIState) (pending : List Event) :
    ℚ × UIState :=
  if now - last_pump_time < 15 / 100 then (last_pump_time, st)
  else (now, pending.foldl applyEvent st)

/-- Terminal-event recogniser. -/
def isDone : Event → Bool
  | Event.done _ => true
  | _ => false

/-- Number of `done` events in a list. -/
def countDone (l : List Event) : Nat := (l.filter isDone).length

/-- Substring containment as a proposition on the underlying character
lists. -/
def strHasSub (pat s : String) : Prop :=
  ∃ a b : List Char, s.toList = a ++ (pat.toList ++ b)

/-! ## General helper lemmas -/

theorem str_data_append (s t : String) : (s ++ t).data = s.data ++ t.data := rfl

theorem str_append_assoc (a b c : String) : a ++ b ++ c = a ++ (b ++ c) := by
  cases a with | mk da => cases b with | mk db => cases c with | mk dc =>
    show String.mk ((da ++ db) ++ dc) = String.mk (da ++ (db ++ dc))
    rw [List.append_assoc]

theorem roundHalfEven_intCast (n : ℤ) : roundHalfEven (n : ℚ) = n := by
  simp only [roundHalfEven, Rat.num_intCast, Rat.den_intCast, Nat.cast_one, Int.fdiv_one,
    sub_self]
  norm_num

theorem format1f_intCast (n : ℤ) : format1f (n : ℚ) = toString n ++ ".0" := by
  have h : ((n : ℚ)) * 10 = ((n * 10 : ℤ) : ℚ) := by push_cast; ring
  have h2 : Int.fdiv (n * 10) 10 = n := Int.mul_fdiv_cancel n (by norm_num)
  have h3 : Int.emod (n * 10) 10 = 0 := Int.mul_emod_left n 10
  simp only [format1f, h, roundHalfEven_intCast, h2, h3]
  have h4 : toString (0 : ℤ) = "0" := rfl
  rw [h4, str_append_assoc]
  rfl

theorem dl_percent_eq (d : StatusDict) :
    dl_percent d =
      if dl_total d ≠ 0 ∧ dl_downloaded d ≠ 0 then
        ((dl_downloaded d : ℚ)) / ((dl_total d : ℚ))
      else 0 := by
  simp [dl_percent, Bool.and_eq_true, bne_iff_ne]

theorem countDone_append (a b : List Event) :
    countDone (a ++ b) = countDone a + countDone b := by
  simp [countDone, List.filter_append]

theorem progress_hook_ok_no_done (c : Bool) (d : StatusDict) (evs : List Event)
    (h : progress_hook c d = Except.ok evs) : countDone evs = 0 := by
  unfold progress_hook at h
  split at h
  · simp at h
  · split at h
    · injection h with h
      subst h
      rfl
    · split at h
      · injection h with h
        subst h
        rfl
      · injection h with h
        subst h
        rfl

theorem run_download_no_done (calls : List (Bool × StatusDict)) (outcome : Option Exn) :
    countDone (run_download calls outcome).1 = 0 := by
  induction calls with
  | nil => rfl
  | cons c rest ih =>
    unfold run_download
    cases hh : progress_hook c.1 c.2 with
    | error e => rfl
    | ok evs =>
      simpa [countDone_append, ih] using progress_hook_ok_no_done c.1 c.2 evs hh

theorem make_ydl_opts_no_done (url out_dir out_type quality : String) (have_ffmpeg : Bool) :
    countDone (make_ydl_opts url out_dir out_type quality have_ffmpeg).2 = 0 := by
  simp only [make_ydl_opts]
  (repeat' split) <;> rfl

theorem bfs_mp4_no_ffmpeg (q : String) :
    strHasChar (build_format_string q true false).1 '+' = false ∧
    (build_format_string q true false).2 = [] := by
  unfold build_format_string quality_heights_get
  (repeat' split) <;> first | exact ⟨rfl, rfl⟩ | simp_all

theorem mko_video_no_ffmpeg (url out_dir q : String) :
    (make_ydl_opts url out_dir "Video (MP4)" q false).1.format =
      (build_format_string q true false).1 ∧
    (make_ydl_opts url out_dir "Video (MP4)" q false).2 = [] := by
  have h := bfs_mp4_no_ffmpeg q
  simp [make_ydl_opts, h.1]

/-! ## Claim theorems -/

/-- C9: `on_cancel_download` only sets the cancellation flag and logs
"Cancelling..." (its observable effects are exactly these two); once the
flag is set, every invocation of `progress_hook` — for any status dict,
including the very first invocation — raises the fatal cancellation signal
`DownloadError("Cancelled by user")` and enqueues no event at all. -/
theorem c9_cancel_sets_flag_and_hook_aborts :
    on_cancel_download = { flagSet := true, logs := ["Cancelling..."] } ∧
    ∀ d : StatusDict,
      progress_hook true d = Except.error (Exn.downloadError "Cancelled by user") := by
  refine ⟨rfl, fun d => ?_⟩
  simp [progress_hook]

/-- C10 (implicit frame effect): with the cancellation flag unset and a
status other than "downloading" or "finished" (unknown or missing), the
hook returns normally and enqueues nothing. -/
theorem c10_hook_other_status_no_events (d : StatusDict)
    (h1 : d.status ≠ some "downloading") (h2 : d.status ≠ some "finished") :
    progress_hook false d = Except.ok [] := by
  simp only [progress_hook, Bool.false_eq_true, if_false]
  rw [if_neg, if_neg]
  · simp [h2]
  · simp [h1]

/-- Witness for C10 at a concrete unknown status. -/
theorem c10_witness :
    progress_hook false
      { status := some "postprocessing", total_bytes := none, total_bytes_estimate := none,
        downloaded_bytes := none, speed := none, eta := none, filename := none } =
      Except.ok [] :=
  c10_hook_other_status_no_events _ (by decide) (by decide)

/-- C7: `on_start_download` rejects without launching any work when the
(stripped) url is empty, the (stripped) output directory is empty, or the
output directory is not a directory: exactly one log line is reported, no
worker is spawned (hence no Done event can ever be enqueued for this call),
and neither the cancellation flag nor the progress state is touched. -/
theorem c7_start_rejects_invalid (rawUrl rawOutDir : String) (isdir : String → Bool)
    (h : rawUrl.trim = "" ∨ rawOutDir.trim = "" ∨ isdir rawOutDir.trim = false) :
    (on_start_download rawUrl rawOutDir isdir).logs.length = 1 ∧
    (on_start_download rawUrl rawOutDir isdir).spawned = false ∧
    (on_start_download rawUrl rawOutDir isdir).cancelCleared = false ∧
    (on_start_download rawUrl rawOutDir isdir).progressReset = false := by
  unfold on_start_download
  rcases h with h | h | h <;> simp only [h] <;> (repeat' split) <;> simp_all

/-- Witness for C7: a nonexistent output directory is rejected with one log
line and no spawned worker. -/
theorem c7_witness :
    (on_start_download "http://example.com/v" "/no/such/dir" (fun _ => false)).logs.length = 1 ∧
    (on_start_download "http://example.com/v" "/no/such/dir" (fun _ => false)).spawned = false ∧
    (on_start_download "http://example.com/v" "/no/such/dir"
        (fun _ => false)).cancelCleared = false ∧
    (on_start_download "http://example.com/v" "/no/such/dir"
        (fun _ => false)).progressReset = false :=
  c7_start_rejects_invalid _ _ _ (Or.inr (Or.inr rfl))

/-- C8: the fraction the consumer pump applies to the progress state is the
input fraction clamped to [0,1], for every Progress payload; in particular a
hook invocation with downloaded_bytes = 300 > total_bytes = 200 (malformed
upstream data) enqueues fraction 3/2, and the pump applies exactly 1. -/
theorem c8_pump_clamps_fraction :
    (∀ (st : UIState) (p : ℚ) (t : String),
      (applyEvent st (Event.progress p t)).progressBar = max 0 (min 1 p) ∧
      0 ≤ (applyEvent st (Event.progress p t)).progressBar ∧
      (applyEvent st (Event.progress p t)).progressBar ≤ 1) ∧
    progress_hook false ⟨some "downloading", some 200, none, some 300, none, none, none⟩ =
      Except.ok [Event.progress (3 / 2) "Downloading... 150.0%"] ∧
    (ui_pump 0 1 ⟨"", 0, "Idle", true, false⟩
      [Event.progress (3 / 2) "Downloading... 150.0%"]).2.progressBar = 1 := by
  refine ⟨fun st p t => ⟨rfl, le_max_left 0 _, max_le (by norm_num) (min_le_left 1 p)⟩, ?_, ?_⟩
  · have hp : dl_percent ⟨some "downloading", some 200, none, some 300, none, none, none⟩ =
        3 / 2 := by
      simp only [dl_percent, dl_total, dl_downloaded, orNat]
      norm_num
    have ht : dl_text ⟨some "downloading", some 200, none, some 300, none, none, none⟩ =
        "Downloading... 150.0%" := by
      simp only [dl_text, hp]
      have h100 : (3 / 2 : ℚ) * 100 = ((150 : ℤ) : ℚ) := by norm_num
      rw [h100, format1f_intCast]
      rfl
    calc progress_hook false ⟨some "downloading", some 200, none, some 300, none, none, none⟩
        = Except.ok [Event.progress
            (dl_percent ⟨some "downloading", some 200, none, some 300, none, none, none⟩)
            (dl_text ⟨some "downloading", some 200, none, some 300, none, none, none⟩)] := rfl
      _ = Except.ok [Event.progress (3 / 2) "Downloading... 150.0%"] := by rw [hp, ht]
  · simp only [ui_pump]
    rw [if_neg (by norm_num)]
    simp only [List.foldl, applyEvent]
    norm_num

/-- C4: for every "downloading" status record (cancellation flag unset) the
enqueued Progress event's fraction is downloaded/total when both are known
and nonzero and 0 otherwise, and the display text contains the formatted
percentage; in particular downloaded_bytes = 50 with total_bytes = 200
yields fraction 1/4 with a display string containing "25.0%". -/
theorem c4_downloading_fraction_and_text (tb tbe db : Option Nat) (sp : Option ℚ)
    (et : Option Nat) (fn : Option String) :
    progress_hook false ⟨some "downloading", tb, tbe, db, sp, et, fn⟩ =
      Except.ok [Event.progress
        (if orNat tb (orNat tbe 0) ≠ 0 ∧ orNat db 0 ≠ 0 then
          ((orNat db 0 : ℚ)) / ((orNat tb (orNat tbe 0) : ℚ))
         else 0)
        (dl_text ⟨some "downloading", tb, tbe, db, sp, et, fn⟩)] ∧
    strHasSub
      (format1f (dl_percent ⟨some "downloading", tb, tbe, db, sp, et, fn⟩ * 100) ++ "%")
      (dl_text ⟨some "downloading", tb, tbe, db, sp, et, fn⟩) ∧
    progress_hook false ⟨some "downloading", some 200, none, some 50, none, none, none⟩ =
      Except.ok [Event.progress (1 / 4) "Downloading... 25.0%"] ∧
    strHasSub "25.0%" "Downloading... 25.0%" := by
  refine ⟨?_, ?_, ?_, ?_⟩
  · calc progress_hook false ⟨some "downloading", tb, tbe, db, sp, et, fn⟩
        = Except.ok [Event.progress
            (dl_percent ⟨some "downloading", tb, tbe, db, sp, et, fn⟩)
            (dl_text ⟨some "downloading", tb, tbe, db, sp, et, fn⟩)] := rfl
      _ = _ := by rw [dl_percent_eq]; rfl
  · refine ⟨"Downloading... ".toList, (dl_speed_part sp ++ dl_eta_part et).toList, ?_⟩
    simp only [dl_text, String.toList, str_data_append, List.append_assoc]
  · have hp : dl_percent ⟨some "downloading", some 200, none, some 50, none, none, none⟩ =
        1 / 4 := by
      simp only [dl_percent, dl_total, dl_downloaded, orNat]
      norm_num
    have ht : dl_text ⟨some "downloading", some 200, none, some 50, none, none, none⟩ =
        "Downloading... 25.0%" := by
      simp only [dl_text, hp]
      have h100 : (1 / 4 : ℚ) * 100 = ((25 : ℤ) : ℚ) := by norm_num
      rw [h100, format1f_intCast]
      rfl
    calc progress_hook false ⟨some "downloading", some 200, none, some 50, none, none, none⟩
        = Except.ok [Event.progress
            (dl_percent ⟨some "downloading", some 200, none, some 50, none, none, none⟩)
            (dl_text ⟨some "downloading", some 200, none, some 50, none, none, none⟩)] := rfl
      _ = Except.ok [Event.progress (1 / 4) "Downloading... 25.0%"] := by rw [hp, ht]
  · exact ⟨"Downloading... ".toList, [], rfl⟩

/-- C2: every execution of the worker — normal collaborator return
(`outcome = none` after all hook calls succeed), cancellation-signalled
abort, or any other exception — enqueues exactly one terminal Done event,
as the final event: `done true` on normal return and `done false` on both
failure paths; no path produces zero or two Done events. -/
theorem c2_exactly_one_done (url out_dir out_type quality : String) (have_ffmpeg : Bool)
    (calls : List (Bool × StatusDict)) (outcome : Option Exn) :
    countDone (downloader_worker url out_dir out_type quality have_ffmpeg calls outcome) = 1 ∧
    (downloader_worker url out_dir out_type quality have_ffmpeg calls outcome).getLast? =
      some (Event.done (run_download calls outcome).2.isNone) := by
  simp only [downloader_worker]
  cases hr : (run_download calls outcome).2 with
  | none =>
    constructor
    · rw [countDone_append, countDone_append, countDone_append, make_ydl_opts_no_done,
        run_download_no_done]
      rfl
    · rw [List.getLast?_append_of_ne_nil _ (by simp)]
      rfl
  | some e =>
    cases e with
    | downloadError m =>
      constructor
      · rw [countDone_append, countDone_append, countDone_append, make_ydl_opts_no_done,
          run_download_no_done]
        rfl
      · rw [List.getLast?_append_of_ne_nil _ (by simp)]
        rfl
    | otherError m =>
      constructor
      · rw [countDone_append, countDone_append, countDone_append, make_ydl_opts_no_done,
          run_download_no_done]
        rfl
      · rw [List.getLast?_append_of_ne_nil _ (by simp)]
        rfl

/-- C3: the worker distinguishes the cancellation signal from other
failures: the cancellation flag makes the hook raise
`DownloadError("Cancelled by user")`; when the download run ends with the
`DownloadError` signal the worker enqueues `Log "Cancelled: …"` then
`done false`, and when it ends with any other exception the worker enqueues
`Log "Error: …"` then `done false`. -/
theorem c3_cancel_vs_error (url out_dir out_type quality : String) (have_ffmpeg : Bool)
    (calls : List (Bool × StatusDict)) (outcome : Option Exn) (m : String) :
    (∀ d, progress_hook true d = Except.error (Exn.downloadError "Cancelled by user")) ∧
    ((run_download calls outcome).2 = some (Exn.downloadError m) →
      downloader_worker url out_dir out_type quality have_ffmpeg calls outcome =
        (make_ydl_opts url out_dir out_type quality have_ffmpeg).2 ++
          [Event.log ("Starting: " ++ url)] ++ (run_download calls outcome).1 ++
          [Event.log ("Cancelled: " ++ m), Event.done false]) ∧
    ((run_download calls outcome).2 = some (Exn.otherError m) →
      downloader_worker url out_dir out_type quality have_ffmpeg calls outcome =
        (make_ydl_opts url out_dir out_type quality have_ffmpeg).2 ++
          [Event.log ("Starting: " ++ url)] ++ (run_download calls outcome).1 ++
          [Event.log ("Error: " ++ m), Event.done false]) := by
  refine ⟨fun d => by simp [progress_hook], fun h => ?_, fun h => ?_⟩ <;>
    simp only [downloader_worker, h]

/-- Witness for C3: a hook call with the flag set ends the run with the
cancellation signal and the worker reports "Cancelled: …"; a plain
collaborator exception is reported as "Error: …". -/
theorem c3_witness :
    downloader_worker "u" "/o" "Video (MP4)" "Best" true
        [(true, ⟨none, none, none, none, none, none, none⟩)] none =
      (make_ydl_opts "u" "/o" "Video (MP4)" "Best" true).2 ++
        [Event.log ("Starting: " ++ "u")] ++
        (run_download [(true, ⟨none, none, none, none, none, none, none⟩)] none).1 ++
        [Event.log ("Cancelled: " ++ "Cancelled by user"), Event.done false] ∧
    downloader_worker "u" "/o" "Video (MP4)" "Best" true [] (some (Exn.otherError "boom")) =
      (make_ydl_opts "u" "/o" "Video (MP4)" "Best" true).2 ++
        [Event.log ("Starting: " ++ "u")] ++
        (run_download ([] : List (Bool × StatusDict)) (some (Exn.otherError "boom"))).1 ++
        [Event.log ("Error: " ++ "boom"), Event.done false] :=
  ⟨(c3_cancel_vs_error "u" "/o" "Video (MP4)" "Best" true
      [(true, ⟨none, none, none, none, none, none, none⟩)] none "Cancelled by user").2.1 rfl,
   (c3_cancel_vs_error "u" "/o" "Video (MP4)" "Best" true
      [] (some (Exn.otherError "boom")) "boom").2.2 rfl⟩

/-- C1 (counterexample): the no-merge-without-muxer invariant does not hold
for every output kind: a "Best (Original)" request with tier "Best" and no
ffmpeg still receives the combined selector "bestvideo+bestaudio/best",
which contains the two-stream '+' combinator. -/
theorem c1_counterexample :
    strHasChar (make_ydl_opts "u" "/out" "Best (Original)" "Best" false).1.format '+' = true :=
  by decide

/-- C1 (amended): the single-stream fallback is applied only on the
"Video (MP4)" path (and "Audio (MP3)" is single-stream anyway): for those
kinds the chosen format expression never contains a '+' combined selector
when ffmpeg is unavailable; the "Best (Original)" path returns the combined
selector regardless of muxer availability. -/
theorem c1_no_merge_only_for_mp4_kinds (url out_dir q : String) :
    strHasChar (make_ydl_opts url out_dir "Video (MP4)" q false).1.format '+' = false ∧
    strHasChar (make_ydl_opts url out_dir "Audio (MP3)" q false).1.format '+' = false ∧
    strHasChar (make_ydl_opts url out_dir "Best (Original)" "Best" false).1.format '+' = true := by
  refine ⟨?_, ?_, ?_⟩
  · rw [(mko_video_no_ffmpeg url out_dir q).1]
    exact (bfs_mp4_no_ffmpeg q).1
  · have h : (make_ydl_opts url out_dir "Audio (MP3)" q false).1.format = "bestaudio/best" := by
      simp [make_ydl_opts]
    rw [h]
    rfl
  · have h : (make_ydl_opts url out_dir "Best (Original)" "Best" false).1.format =
        "bestvideo+bestaudio/best" := by
      simp [make_ydl_opts, build_format_string, quality_heights_get]
    rw [h]
    rfl

/-- C5 (counterexample): the AudioOnly tier does not force the audio-only
plan for an unrecognized output kind: the final `else` branch of
`make_ydl_opts` ignores the quality entirely and picks
"bestvideo+bestaudio/best". -/
theorem c5_counterexample :
    (make_ydl_opts "u" "/out" "Podcast" "Audio only" false).1.format =
      "bestvideo+bestaudio/best" ∧
    ¬ (make_ydl_opts "u" "/out" "Podcast" "Audio only" false).1.format = "bestaudio/best" :=
  by decide

/-- C5 (amended): the resolver proper maps the "Audio only" tier to
("bestaudio/best", no extra options) for every kind flag and muxer state;
through `make_ydl_opts` this gives the "Video (MP4)" and "Best (Original)"
kinds the audio-only plan with no auxiliary options (no merge container, no
postprocessors, no queued events), and the "Audio (MP3)" kind the same
format expression; an unrecognized kind bypasses the resolver and ignores
the tier. -/
theorem c5_audio_only_for_recognized_kinds (url out_dir : String)
    (fm ff : Bool) :
    build_format_string "Audio only" fm ff = ("bestaudio/best", []) ∧
    ((make_ydl_opts url out_dir "Video (MP4)" "Audio only" ff).1.format = "bestaudio/best" ∧
     (make_ydl_opts url out_dir "Video (MP4)" "Audio only" ff).1.merge_output_format = none ∧
     (make_ydl_opts url out_dir "Video (MP4)" "Audio only" ff).1.postprocessors = [] ∧
     (make_ydl_opts url out_dir "Video (MP4)" "Audio only" ff).2 = []) ∧
    ((make_ydl_opts url out_dir "Best (Original)" "Audio only" ff).1.format =
        "bestaudio/best" ∧
     (make_ydl_opts url out_dir "Best (Original)" "Audio only" ff).1.merge_output_format =
        none ∧
     (make_ydl_opts url out_dir "Best (Original)" "Audio only" ff).1.postprocessors = [] ∧
     (make_ydl_opts url out_dir "Best (Original)" "Audio only" ff).2 = []) ∧
    (make_ydl_opts url out_dir "Audio (MP3)" "Audio only" ff).1.format = "bestaudio/best" := by
  cases fm <;> cases ff <;>
    simp [make_ydl_opts, build_format_string, quality_heights_get, baseOpts, applyExtra,
      strHasChar]

/-- C6 (counterexample): assembling a Video (MP4) request without ffmpeg
substitutes the single-file fallback expression but enqueues NO log event:
the guard `"+" in fmt` tests the already-overwritten expression, so the
informational fallback message is never queued. -/
theorem c6_counterexample :
    (make_ydl_opts "u" "/out" "Video (MP4)" "720p" false).2 = [] ∧
    (make_ydl_opts "u" "/out" "Video (MP4)" "720p" false).1.format =
      "best[ext=mp4][height<=720]/best" :=
  by decide

/-- C6 (amended): whenever a Video (MP4) request is assembled without
ffmpeg, the resolver substitutes a single-file fallback plan (no '+'
combinator in the expression), but no informational Log event is enqueued:
the fallback note's guard can never fire because the combined expression has
already been replaced. -/
theorem c6_silent_fallback_no_log (url out_dir q : String) :
    strHasChar (make_ydl_opts url out_dir "Video (MP4)" q false).1.format '+' = false ∧
    (make_ydl_opts url out_dir "Video (MP4)" q false).2 = [] := by
  refine ⟨?_, (mko_video_no_ffmpeg url out_dir q).2⟩
  rw [(mko_video_no_ffmpeg url out_dir q).1]
  exact (bfs_mp4_no_ffmpeg q).1

end SaveFromYoutube
